import Mathlib

/-!
Verification development for the `geoclass` repository (src/geotoolkit.py).

The Python module converts a vector map of geologic-unit polygons into a
color-coded label raster co-registered with a source raster tile, and masks
the source raster by the label raster's no-data regions.

Shallow embedding conventions:
* shapely geometries are modelled as finite sets of integer grid points
  (`Finset (ℤ × ℤ)`); `intersects`, `intersection`, `contains` and area
  become set operations and cardinality;
* GeoDataFrames become lists of records (the pipeline's dataframes carry a
  unique RangeIndex, produced by `append(..., ignore_index=True)` or
  `read_file`, so positional indexing is faithful to label indexing);
* Python strings (paths, csv cells) are lists of characters; `str.split`,
  `str.replace` and indexing are re-implemented with Python's semantics;
* fallible Python code (uncaught exceptions) is embedded in `Except PyErr`;
* file reads (`pd.read_csv`, `rasterio.open`) are parameterized by an
  explicit environment / filesystem value.
-/

/-- Python exception classes raised (or named by the spec's taxonomy) in the
pipeline.  `readError` is the untyped exception propagating out of a failed
`pd.read_csv`/`rasterio.open`; `keyError` is the pandas `KeyError` carrying
the missing key (the spec's UnknownUnit); `valueError`/`indexError` arise
from `np.int(...)`/`split(...)[k]` on malformed color cells;
`dimensionMismatch` is the spec's DimensionMismatch during array reshaping.
`resourceUnavailable` is the spec's ResourceUnavailable error class; it is
listed here so that statements can compare against it — the Python code
itself never raises it. -/
inductive PyErr where
  | readError (msg : String)
  | keyError (key : String)
  | valueError
  | indexError
  | dimensionMismatch
  | resourceUnavailable
deriving DecidableEq

/-- A shapely geometry's point set: a finite set of integer grid points. -/
abbrev Geom := Finset (ℤ × ℤ)

/-- shapely `a.intersects(b)`: the two geometries share at least one point. -/
def gIntersects (a b : Geom) : Prop := (a ∩ b).Nonempty

instance (a b : Geom) : Decidable (gIntersects a b) := Finset.decidableNonempty

/-- shapely `a.contains(b)`: every point of `b` lies in `a` and `b` is
nonempty (shapely's `contains` is `False` for an empty argument, since it
requires a point of the interior of `b` inside `a`). -/
def gContains (a b : Geom) : Prop := b.Nonempty ∧ b ⊆ a

instance (a b : Geom) : Decidable (gContains a b) := instDecidableAnd

/-- A row of the vector GeoDataFrame handled by `part_the_geojson`: a
geometry plus the row's remaining attributes (column name / value pairs). -/
structure PRecord where
  geometry : Geom
  attrs : List (String × String)
deriving DecidableEq

/-- The keep/clip test of `part_the_geojson`:
`row.geometry.intersects(bounds) or row.geometry.contains(bounds)`. -/
def clipCond (bounds : Geom) (row : PRecord) : Prop :=
  gIntersects row.geometry bounds ∨ gContains row.geometry bounds

instance (bounds : Geom) (row : PRecord) : Decidable (clipCond bounds row) :=
  instDecidableOr

/-- `part_the_geojson(bounds, gdf)` from src/geotoolkit.py lines 19–36.

The Python loops over the rows, and for each row that intersects (or
contains) `bounds` overwrites the row's geometry **in the caller's
dataframe** with the intersection (`gdf.at[i,'geometry'] = new_value`);
rows failing the test are collected in `todrop` and dropped from the
mutated frame to form the returned frame.  The embedding returns the pair
(state of the argument dataframe after the call, returned dataframe). -/
def part_the_geojson (bounds : Geom) (gdf : List PRecord) :
    List PRecord × List PRecord :=
  let processed := gdf.map (fun row =>
    (decide (clipCond bounds row),
     if clipCond bounds row then
       { row with geometry := row.geometry ∩ bounds }
     else row))
  (processed.map Prod.snd, (processed.filter Prod.fst).map Prod.snd)

/-- The geometry kinds a GeoDataFrame cell can hold: a simple shapely
`Polygon`, a `MultiPolygon` (ordered list of constituent polygons), or any
other shapely type (Point, LineString, ...), whose content the pipeline
never inspects. -/
inductive PyGeom where
  | polygon (g : Geom)
  | multiPolygon (gs : List Geom)
  | other
deriving DecidableEq

/-- A row of the vector GeoDataFrame handled by `clean_gdf_geometry`. -/
structure CRecord where
  geom : PyGeom
  attrs : List (String × String)
deriving DecidableEq

/-- A GeoDataFrame: ordered rows plus the frame's CRS. -/
structure GeoDF where
  rows : List CRecord
  crs : String
deriving DecidableEq

/-- `clean_gdf_geometry(gdf)` from src/geotoolkit.py lines 78–97.

Per row: a `Polygon` row is appended unchanged; a `MultiPolygon` row is
appended once per constituent (`[row]*recs` duplicates the attributes, then
each copy's geometry is overwritten with one constituent).  A row of any
other geometry type matches neither `if` and is skipped.  Finally
`outdf.crs = gdf.crs`. -/
def clean_gdf_geometry (gdf : GeoDF) : GeoDF :=
  { rows := gdf.rows.foldl (fun outdf row =>
      match row.geom with
      | PyGeom.polygon _ => outdf ++ [row]
      | PyGeom.multiPolygon gs =>
          outdf ++ gs.map (fun g => { row with geom := PyGeom.polygon g })
      | PyGeom.other => outdf) []
    crs := gdf.crs }

/-- The rows `clean_gdf_geometry` contributes for one input row. -/
def expandRow (row : CRecord) : List CRecord :=
  match row.geom with
  | PyGeom.polygon _ => [row]
  | PyGeom.multiPolygon gs =>
      gs.map (fun g => { row with geom := PyGeom.polygon g })
  | PyGeom.other => []

/-- A geometry the normalizer supports and which contributes at least one
output row: a `Polygon`, or a `MultiPolygon` with ≥ 1 constituent. -/
def supportedNonempty : PyGeom → Bool
  | PyGeom.polygon _ => true
  | PyGeom.multiPolygon gs => !gs.isEmpty
  | PyGeom.other => false

/-- Is the geometry of an unsupported kind (neither Polygon nor
MultiPolygon)? -/
def isOtherGeom : PyGeom → Bool
  | PyGeom.other => true
  | _ => false

/-- A Python string, as a list of characters. -/
abbrev PyStr := List Char

/-- Python `s.split(sep)` for a single-character separator: splits at every
occurrence, keeping empty fields, and always returns at least one field. -/
def pySplitChar (sep : Char) : PyStr → List PyStr
  | [] => [[]]
  | c :: s =>
      let r := pySplitChar sep s
      if c = sep then [] :: r
      else
        match r with
        | [] => [[c]]
        | t :: ts => (c :: t) :: ts

/-- Decimal digits of a Python `int(...)` argument, most significant first;
`none` when any character is not a digit or the list is empty. -/
def parseNatChars (s : PyStr) : Option ℕ :=
  if s.isEmpty then none
  else s.foldl (fun acc c =>
    acc.bind (fun a =>
      if '0' ≤ c ∧ c ≤ '9' then some (a * 10 + (c.toNat - '0'.toNat))
      else none)) (some 0)

/-- Python `int(s)` / `np.int(s)`: an optional leading minus sign followed
by decimal digits; any other shape raises ValueError (surrounding
whitespace, which never occurs in the data handled here, is ignored by
Python but rejected here). -/
def parseIntChars : PyStr → Option ℤ
  | '-' :: rest => (parseNatChars rest).map (fun n => -(n : ℤ))
  | s => (parseNatChars s).map (fun n => (n : ℤ))

/-- Fuel-driven core of Python `s.replace(old, new)`: replaces the leftmost
occurrence of `pat` and continues after the replacement, non-overlapping.
`fuel ≥ s.length` makes the fuel inexhaustible. -/
def pyReplaceFuel (rep pat : PyStr) : ℕ → PyStr → PyStr
  | 0, s => s
  | _ + 1, [] => []
  | k + 1, c :: s =>
      if pat ≠ [] ∧ pat.isPrefixOf (c :: s) then
        rep ++ pyReplaceFuel rep pat k ((c :: s).drop pat.length)
      else
        c :: pyReplaceFuel rep pat k s

/-- Python `s.replace(pat, rep)` for a nonempty `pat`, replacing every
non-overlapping occurrence from the left.  (For the empty `pat` Python
would intersperse `rep` between all characters; the pipeline only ever
reaches this case with `rep = ''`, where Python returns `s` unchanged, as
here.) -/
def pyReplace (s pat rep : PyStr) : PyStr :=
  if pat = [] then s else pyReplaceFuel rep pat s.length s

/-- Python `path.split('/')[-1]`: the suffix after the last `'/'` (the whole
string when no `'/'` occurs). -/
def lastComp (s : PyStr) : PyStr :=
  (s.reverse.takeWhile (fun c => c ≠ '/')).reverse

/-- Python `fn.split('_')[0]`: the prefix before the first `'_'` (the whole
string when no `'_'` occurs). -/
def firstToken (s : PyStr) : PyStr :=
  s.takeWhile (fun c => c ≠ '_')

/-- `format_label_fn(path_to_rasterfile)` from src/geotoolkit.py lines
134–148: take the base filename (after the last `'/'`), delete every
occurrence of it from the path via `str.replace` to obtain the directory
part, and append the first underscore token of the base plus the fixed
suffix `'_labels.tif'`. -/
def format_label_fn (p : PyStr) : PyStr :=
  let fn := if p.contains '/' then lastComp p else p
  let path := if p.contains '/' then pyReplace p fn [] else []
  let tile := firstToken fn
  path ++ tile ++ ("_labels.tif".toList)

/-- One row of the reference color table, with the two columns the code
selects (`unitcolor.loc[:, ['mapunit', 'areafillrgb']]`; pandas raises
KeyError earlier if they are absent, so the embedding types them in). -/
structure CsvRow where
  mapunit : String
  areafillrgb : PyStr
deriving DecidableEq

/-- The outcome of one `pd.read_csv` call: the parsed rows, or the raised
exception's message.  `generate_unitcolor_lookup` is parameterized by such
an environment, mapping each path/URL it may read to that outcome. -/
abbrev CsvEnv := String → Except String (List CsvRow)

/-- The fixed remote fallback URL for the unit description table
(src/geotoolkit.py line 50). -/
def FALLBACK_DESC_URL : String :=
  "https://raw.githubusercontent.com/azgs/geologic-map-of-arizona/gh-pages/data/DescriptionOfMapUnits.csv"

/-- `x.split(';')[k]` followed by `np.int(...)`, the per-cell work of the
three `unitcolor.areafillrgb.apply(...)` lines (src/geotoolkit.py lines
53–55): IndexError when the cell has no `k`-th field, ValueError when the
field is not an integer literal. -/
def parseChannel (cell : PyStr) (k : ℕ) : Except PyErr ℤ :=
  match (pySplitChar ';' cell)[k]? with
  | none => Except.error PyErr.indexError
  | some t =>
      match parseIntChars t with
      | none => Except.error PyErr.valueError
      | some v => Except.ok v

/-- A Python list comprehension over `Except`: the first raised exception
propagates. -/
def mapExcept (f : α → Except PyErr β) : List α → Except PyErr (List β)
  | [] => Except.ok []
  | x :: xs => do
      let y ← f x
      let ys ← mapExcept f xs
      Except.ok (y :: ys)

/-- One entry of the unit-color lookup table: mapunit key and the parsed
R, G, B channel values. -/
abbrev LutEntry := String × ℤ × ℤ × ℤ

/-- The R/G/B column construction plus `set_index('mapunit')` of
`generate_unitcolor_lookup` (src/geotoolkit.py lines 52–57): every row's
`areafillrgb` cell is split on `';'` and its first three fields parsed as
integers.  (pandas evaluates the R column for all rows, then G, then B;
row-wise evaluation only changes which of several malformed cells raises
first, which nothing here depends on.) -/
def processCsv (rows : List CsvRow) : Except PyErr (List LutEntry) :=
  mapExcept (fun row => do
    let r ← parseChannel row.areafillrgb 0
    let g ← parseChannel row.areafillrgb 1
    let b ← parseChannel row.areafillrgb 2
    Except.ok (row.mapunit, r, g, b)) rows

/-- `generate_unitcolor_lookup(path_to_desc)` from src/geotoolkit.py lines
39–59.  `try: pd.read_csv(path)` with a bare `except:` falling back to one
read of the fixed remote URL; a failure of the fallback read propagates
uncaught.  The second component records the paths passed to `pd.read_csv`,
in order. -/
def generate_unitcolor_lookup (env : CsvEnv) (path : String) :
    Except PyErr (List LutEntry) × List String :=
  match env path with
  | Except.ok rows => (processCsv rows, [path])
  | Except.error _ =>
      match env FALLBACK_DESC_URL with
      | Except.ok rows => (processCsv rows, [path, FALLBACK_DESC_URL])
      | Except.error e =>
          (Except.error (PyErr.readError e), [path, FALLBACK_DESC_URL])

/-- pandas `unitcolor.R[key]` after `set_index('mapunit')`: the stored value
of the first row whose index equals `key`, or a KeyError naming the absent
key.  (`sel` picks the R, G or B component.) -/
def lutGet (sel : ℤ × ℤ × ℤ → ℤ) (lut : List LutEntry) (key : String) :
    Except PyErr ℤ :=
  match lut.find? (fun e => decide (e.1 = key)) with
  | some e => Except.ok (sel e.2)
  | none => Except.error (PyErr.keyError key)

/-- An affine georeferencing transform (rasterio `Affine`), mapping a pixel
position to a point of the CRS. -/
structure AffineT where
  a : ℤ
  b : ℤ
  c : ℤ
  d : ℤ
  e : ℤ
  f : ℤ
deriving DecidableEq

/-- The CRS point at pixel column `col`, row `row` under the transform. -/
def AffineT.apply (t : AffineT) (col row : ℕ) : ℤ × ℤ :=
  (t.a * (col : ℤ) + t.b * (row : ℤ) + t.c,
   t.d * (col : ℤ) + t.e * (row : ℤ) + t.f)

/-- A single-channel pixel grid: `width` columns, `height` rows, and the
value at each (column, row) position. -/
structure Grid where
  width : ℕ
  height : ℕ
  px : ℕ → ℕ → ℤ

/-- Modelled from the spec: `rasterio.features.rasterize` is an external
library call (its implementation is not part of this repository), so its
burn-in semantics follow spec §4.4: the result is a grid of the requested
shape — interpreted, as throughout the spec, as (width W, height H) — in
which a pixel whose point under `transform` is covered by some input
geometry holds the value of the last such (geometry, value) pair
(last-write-wins), and every uncovered pixel holds the background value 0. -/
def rasterize (shapes : List (Geom × ℤ)) (outShape : ℕ × ℕ) (t : AffineT) :
    Grid :=
  { width := outShape.1
    height := outShape.2
    px := fun col row =>
      shapes.foldl (fun acc s => if t.apply col row ∈ s.1 then s.2 else acc) 0 }

/-- The 3-channel label image built by `gdf_to_rst` (`np.dstack((rz, gz,
bz))`). -/
structure Label where
  r : Grid
  g : Grid
  b : Grid

/-- A row of the clipped two-column view passed to `gdf_to_rst`
(`gdf.loc[:, ['geometry', 'mapunit']]`). -/
structure VRecord where
  geometry : Geom
  mapunit : String
deriving DecidableEq

/-- `gdf_to_rst(gdf, trs, w, h, path_to_desc)` from src/geotoolkit.py lines
62–75: build the unit-color lookup, resolve each row's R (then G, then B)
value by indexing the lookup with the row's mapunit — a missing key raises
KeyError inside the list comprehension — and rasterize each channel over
`out_shape=(w, h)` with the tile's transform. -/
def gdf_to_rst (env : CsvEnv) (gdf : List VRecord) (trs : AffineT)
    (w h : ℕ) (pathToDesc : String) : Except PyErr Label := do
  let unitcolor ← (generate_unitcolor_lookup env pathToDesc).1
  let rshapes ← mapExcept (fun x => do
    let v ← lutGet (fun c => c.1) unitcolor x.mapunit
    Except.ok (x.geometry, v)) gdf
  let gshapes ← mapExcept (fun x => do
    let v ← lutGet (fun c => c.2.1) unitcolor x.mapunit
    Except.ok (x.geometry, v)) gdf
  let bshapes ← mapExcept (fun x => do
    let v ← lutGet (fun c => c.2.2) unitcolor x.mapunit
    Except.ok (x.geometry, v)) gdf
  Except.ok
    { r := rasterize rshapes (w, h) trs
      g := rasterize gshapes (w, h) trs
      b := rasterize bshapes (w, h) trs }

/-- The metadata of a raster tile file, as read by `rasterio.open(...)`:
width, height, affine transform and CRS. -/
structure TileMeta where
  width : ℕ
  height : ℕ
  transform : AffineT
  crs : String
deriving DecidableEq

/-- Modelled from the spec: `numpy.reshape` on the abstract grid.  The
pipeline reshapes each channel to the tile's declared `(w, h)`; per spec §7
a shape that does not match the declared width/height is a
DimensionMismatch error, and a matching reshape is the identity. -/
def npReshape (g : Grid) (w h : ℕ) : Except PyErr Grid :=
  if g.width = w ∧ g.height = h then Except.ok g
  else Except.error PyErr.dimensionMismatch

/-- A written 3-band label raster file: the profile passed to
`rasterio.open(..., 'w', ...)` plus the written bands. -/
structure LFile where
  width : ℕ
  height : ℕ
  transform : AffineT
  crs : String
  bands : List Grid

/-- `write_label_image(label_array, path_to_rasterfile, filename_to_write)`
from src/geotoolkit.py lines 151–169: re-read the source tile's metadata,
split the label array into its three channels, reshape each to the tile's
`(w, h)`, and write them as bands 1, 2, 3 of a new file whose profile
reuses the tile's width, height, CRS and transform.  The embedding returns
the written file. -/
def write_label_image (labelArray : Label) (src : TileMeta) :
    Except PyErr LFile := do
  let w := src.width
  let h := src.height
  let r ← npReshape labelArray.r w h
  let g ← npReshape labelArray.g w h
  let b ← npReshape labelArray.b w h
  Except.ok
    { width := w
      height := h
      transform := src.transform
      crs := src.crs
      bands := [r, g, b] }

/-- A raster file as seen by `mask_raster`: opaque metadata (copied
wholesale by the code), per-band pixel data, and per-band validity masks
(`read_masks`, values 0 or 255), both band-major as rows of columns. -/
structure MFile where
  meta : String
  bands : List (List (List ℕ))
  masks : List (List (List ℕ))
deriving DecidableEq

/-- A filesystem of raster files, keyed by path. -/
abbrev FileSys := List (PyStr × MFile)

/-- Look a path up in the filesystem. -/
def fsRead (fs : FileSys) (p : PyStr) : Option MFile :=
  (fs.find? (fun e => decide (e.1 = p))).map Prod.snd

/-- `rasterio.open(p, 'w')`: create or truncate the file at `p`. -/
def fsWrite (fs : FileSys) (p : PyStr) (f : MFile) : FileSys :=
  fs.filter (fun e => decide (e.1 ≠ p)) ++ [(p, f)]

/-- `rasterio.open(p, ...)` for reading: the file, or the raised error. -/
def fsOpen (fs : FileSys) (p : PyStr) : Except PyErr MFile :=
  match fsRead fs p with
  | some f => Except.ok f
  | none => Except.error (PyErr.readError (String.mk p))

/-- Python `l[k]` on a list, raising IndexError out of range. -/
def pyIndex (l : List α) (k : ℕ) : Except PyErr α :=
  match l[k]? with
  | some x => Except.ok x
  | none => Except.error PyErr.indexError

/-- Elementwise product of two bands (`b *= nm[k, :, :]`; the pipeline
only multiplies arrays of identical shape, where numpy's broadcasting is
the pointwise product). -/
def bandMul (x y : List (List ℕ)) : List (List ℕ) :=
  x.zipWith (fun rx ry => rx.zipWith (fun a b => a * b) ry) y

/-- The output path derived inside `mask_raster` (src/geotoolkit.py lines
188–190): delete every occurrence of the base filename from the path via
`str.replace`, then append the base's first underscore token and the fixed
suffix `'_raster.tif'`. -/
def outRasterName (imgpth : PyStr) : PyStr :=
  let name := lastComp imgpth
  let path := pyReplace imgpth name []
  path ++ firstToken name ++ ("_raster.tif".toList)

/-- `mask_raster(imgpth, lblpth)` from src/geotoolkit.py lines 172–196:
read the label raster's band masks, scale them to 0/1, read the image
raster's three bands (the file is opened in `'r+'` mode but only the
in-memory numpy arrays are multiplied; nothing is written back through that
handle), and write the masked bands with the image's metadata to the
derived output path.  A written file's masks are all-valid (rasterio
reports 255 everywhere for a file without nodata markings). -/
def mask_raster (fs : FileSys) (imgpth lblpth : PyStr) :
    Except PyErr FileSys := do
  let lbl ← fsOpen fs lblpth
  let nm := lbl.masks.map (fun band => band.map (fun row => row.map (fun v => v / 255)))
  let src ← fsOpen fs imgpth
  let meta := src.meta
  let b1 ← pyIndex src.bands 0
  let b2 ← pyIndex src.bands 1
  let b3 ← pyIndex src.bands 2
  let n1 ← pyIndex nm 0
  let n2 ← pyIndex nm 1
  let n3 ← pyIndex nm 2
  let m1 := bandMul b1 n1
  let m2 := bandMul b2 n2
  let m3 := bandMul b3 n3
  let outBands := [m1, m2, m3]
  Except.ok (fsWrite fs (outRasterName imgpth)
    { meta := meta
      bands := outBands
      masks := outBands.map (fun band => band.map (fun row => row.map (fun _ => 255))) })

lemma gContains_imp_gIntersects (a b : Geom) (h : gContains a b) :
    gIntersects a b := by
  obtain ⟨⟨x, hx⟩, hsub⟩ := h
  exact ⟨x, Finset.mem_inter.mpr ⟨hsub hx, hx⟩⟩

lemma clipCond_iff_intersects (bounds : Geom) (row : PRecord) :
    clipCond bounds row ↔ gIntersects row.geometry bounds := by
  constructor
  · rintro (h | h)
    · exact h
    · obtain ⟨⟨x, hx⟩, hsub⟩ := h
      exact ⟨x, Finset.mem_inter.mpr ⟨hsub hx, hx⟩⟩
  · exact Or.inl

/-- C2: records whose geometry does not intersect the bounds are excluded
from the returned dataframe; the returned dataframe consists exactly of
the intersecting records, in order, with each geometry replaced by its
intersection with the bounds; every such intersection has area (here:
cardinality) at most that of the original geometry and lies entirely
within the bounds. -/
theorem part_the_geojson_clips (bounds : Geom) (gdf : List PRecord) :
    (part_the_geojson bounds gdf).2 =
      (gdf.filter (fun r => decide (gIntersects r.geometry bounds))).map
        (fun r => { r with geometry := r.geometry ∩ bounds })
    ∧ ∀ r ∈ gdf,
        (r.geometry ∩ bounds).card ≤ r.geometry.card
        ∧ r.geometry ∩ bounds ⊆ bounds := by
  constructor
  · induction gdf with
    | nil => rfl
    | cons r t ih =>
        simp only [part_the_geojson, List.map_cons, List.filter_cons] at ih ⊢
        by_cases h : clipCond bounds r
        · have hi : gIntersects r.geometry bounds :=
            (clipCond_iff_intersects bounds r).mp h
          simp [h, hi, ih]
        · have hi : ¬ gIntersects r.geometry bounds := fun hx =>
            h ((clipCond_iff_intersects bounds r).mpr hx)
          simp [h, hi, ih]
  · intro r _
    exact ⟨Finset.card_le_card Finset.inter_subset_left,
      Finset.inter_subset_right⟩

/-- A sample record and bounds for witnesses. -/
def sampleRecord : PRecord :=
  ⟨{((0 : ℤ), (0 : ℤ)), ((1 : ℤ), (1 : ℤ))}, [("mapunit", "Qa")]⟩

/-- A sample bounding region for witnesses. -/
def sampleBounds : Geom := {((0 : ℤ), (0 : ℤ))}

/-- Witness for C2 at a concrete bounds and one-record dataframe. -/
theorem part_the_geojson_clips_witness :
    (sampleRecord.geometry ∩ sampleBounds).card ≤ sampleRecord.geometry.card
    ∧ sampleRecord.geometry ∩ sampleBounds ⊆ sampleBounds :=
  (part_the_geojson_clips sampleBounds [sampleRecord]).2 sampleRecord (by simp)

/-- C10: `part_the_geojson` mutates the dataframe passed to it — after the
call, position `i` of the caller's dataframe holds the clipped intersection
geometry whenever row `i` intersected (or contained) the bounds, and the
original row otherwise — so the caller's dataset does not retain its
pre-clip geometries. -/
theorem part_the_geojson_mutates (bounds : Geom) (gdf : List PRecord)
    (i : ℕ) (r : PRecord) (hr : gdf[i]? = some r) :
    (part_the_geojson bounds gdf).1[i]? =
      some (if clipCond bounds r then
        { r with geometry := r.geometry ∩ bounds } else r) := by
  simp [part_the_geojson, List.getElem?_map, hr]

/-- Witness for C10: the record at position 0 of the caller's dataframe
after the call. -/
theorem part_the_geojson_mutates_witness :
    (part_the_geojson sampleBounds [sampleRecord]).1[0]? =
      some (if clipCond sampleBounds sampleRecord then
        { sampleRecord with
            geometry := sampleRecord.geometry ∩ sampleBounds }
      else sampleRecord) :=
  part_the_geojson_mutates sampleBounds [sampleRecord] 0 sampleRecord rfl

lemma clean_step_eq (outdf : List CRecord) (row : CRecord) :
    (match row.geom with
     | PyGeom.polygon _ => outdf ++ [row]
     | PyGeom.multiPolygon gs =>
         outdf ++ gs.map (fun g => { row with geom := PyGeom.polygon g })
     | PyGeom.other => outdf) = outdf ++ expandRow row := by
  cases h : row.geom <;> simp [expandRow, h]

lemma foldl_append_flatMap (f : CRecord → List CRecord)
    (rows : List CRecord) :
    ∀ acc : List CRecord,
      rows.foldl (fun a r => a ++ f r) acc = acc ++ rows.flatMap f := by
  induction rows with
  | nil => intro acc; simp
  | cons r t ih =>
      intro acc
      simp [List.foldl_cons, List.flatMap_cons, ih]

lemma clean_rows_flatMap (gdf : GeoDF) :
    (clean_gdf_geometry gdf).rows = gdf.rows.flatMap expandRow := by
  have hfun :
      (fun (outdf : List CRecord) (row : CRecord) =>
        match row.geom with
        | PyGeom.polygon _ => outdf ++ [row]
        | PyGeom.multiPolygon gs =>
            outdf ++ gs.map (fun g => { row with geom := PyGeom.polygon g })
        | PyGeom.other => outdf)
      = (fun outdf row => outdf ++ expandRow row) :=
    funext fun o => funext fun r => clean_step_eq o r
  unfold clean_gdf_geometry
  simp only [hfun]
  simpa using foldl_append_flatMap expandRow gdf.rows []

lemma expandRow_length_pos (row : CRecord)
    (h : supportedNonempty row.geom = true) : 1 ≤ (expandRow row).length := by
  cases hg : row.geom with
  | polygon g => simp [expandRow, hg]
  | multiPolygon gs =>
      rw [hg] at h
      simp only [supportedNonempty, Bool.not_eq_true'] at h
      cases gs with
      | nil => simp [List.isEmpty] at h
      | cons a as =>
          simp only [expandRow, hg, List.length_map, List.length_cons]
          omega
  | other => rw [hg] at h; simp [supportedNonempty] at h

lemma flatMap_length_ge (rows : List CRecord)
    (h : ∀ r ∈ rows, supportedNonempty r.geom = true) :
    rows.length ≤ (rows.flatMap expandRow).length := by
  induction rows with
  | nil => simp
  | cons r t ih =>
      simp only [List.flatMap_cons, List.length_append, List.length_cons]
      have h1 := expandRow_length_pos r (h r (List.mem_cons_self r t))
      have h2 := ih (fun x hx => h x (List.mem_cons_of_mem r hx))
      omega

/-- C3 (amended): unconditionally, the normalizer preserves the CRS, its
output is exactly the in-order concatenation of each row's expansion, and a
MultiPolygon row with k constituents expands to exactly k records, the j-th
carrying the j-th constituent as a Polygon and a duplicate of the row's
attributes; the record-count inequality (output count at least input
count) holds under its proviso that every row is a Polygon or a
MultiPolygon with at least one constituent. -/
theorem clean_gdf_geometry_spec (gdf : GeoDF) :
    (clean_gdf_geometry gdf).crs = gdf.crs
    ∧ (clean_gdf_geometry gdf).rows = gdf.rows.flatMap expandRow
    ∧ (∀ r ∈ gdf.rows, ∀ gs, r.geom = PyGeom.multiPolygon gs →
        (expandRow r).length = gs.length
        ∧ ∀ j : ℕ, (expandRow r)[j]? =
            (gs[j]?).map (fun g => { r with geom := PyGeom.polygon g }))
    ∧ ((∀ r ∈ gdf.rows, supportedNonempty r.geom = true) →
        gdf.rows.length ≤ (clean_gdf_geometry gdf).rows.length) := by
  refine ⟨rfl, clean_rows_flatMap gdf, ?_, ?_⟩
  · intro r _ gs hgs
    constructor
    · simp [expandRow, hgs]
    · intro j
      simp [expandRow, hgs]
  · intro hsupp
    rw [clean_rows_flatMap gdf]
    exact flatMap_length_ge gdf.rows hsupp

/-- A sample dataframe with one Polygon row and one two-part MultiPolygon
row, for the C3 witness. -/
def sampleCleanGdf : GeoDF :=
  { rows :=
      [⟨PyGeom.polygon {((0 : ℤ), (0 : ℤ))}, [("mapunit", "Qa")]⟩,
       ⟨PyGeom.multiPolygon [{((1 : ℤ), (1 : ℤ))}, {((2 : ℤ), (2 : ℤ))}],
        [("mapunit", "Tb")]⟩]
    crs := "EPSG:26912" }

/-- The MultiPolygon row of `sampleCleanGdf`. -/
def sampleMultiRow : CRecord :=
  ⟨PyGeom.multiPolygon [{((1 : ℤ), (1 : ℤ))}, {((2 : ℤ), (2 : ℤ))}],
   [("mapunit", "Tb")]⟩

/-- Witness for C3 on `sampleCleanGdf`, exercising the per-record
expansion at its two-constituent MultiPolygon row and the count
inequality's proviso. -/
theorem clean_gdf_geometry_spec_witness :
    (clean_gdf_geometry sampleCleanGdf).crs = sampleCleanGdf.crs
    ∧ (expandRow sampleMultiRow).length = 2
    ∧ sampleCleanGdf.rows.length ≤
        (clean_gdf_geometry sampleCleanGdf).rows.length :=
  ⟨(clean_gdf_geometry_spec sampleCleanGdf).1,
   ((clean_gdf_geometry_spec sampleCleanGdf).2.2.1 sampleMultiRow
      (by decide) [{((1 : ℤ), (1 : ℤ))}, {((2 : ℤ), (2 : ℤ))}] rfl).1,
   (clean_gdf_geometry_spec sampleCleanGdf).2.2.2 (by decide)⟩

/-- A dataframe whose single record is a MultiPolygon with zero constituent
polygons. -/
def emptyMultiGdf : GeoDF :=
  { rows := [⟨PyGeom.multiPolygon [], [("mapunit", "Qa")]⟩]
    crs := "EPSG:26912" }

/-- C3 counterexample: on a record whose CompoundGeometry has k = 0
constituents the normalizer emits 0 records, so the output record count
(0) is strictly below the input record count (1), refuting the claimed
"output record count is at least the input record count". -/
theorem clean_gdf_geometry_count_counterexample :
    (clean_gdf_geometry emptyMultiGdf).rows.length = 0
    ∧ emptyMultiGdf.rows.length = 1 :=
  ⟨rfl, rfl⟩

/-- C4 (amended): a record whose geometry is neither a Polygon nor a
MultiPolygon does not make the normalizer fail — it is silently dropped:
the output dataset exists and contains only Polygon geometries, and
removing the unsupported rows from the input leaves the output unchanged. -/
theorem clean_gdf_geometry_drops_unsupported (gdf : GeoDF) :
    (∀ r ∈ (clean_gdf_geometry gdf).rows, ∃ g, r.geom = PyGeom.polygon g)
    ∧ clean_gdf_geometry
        { rows := gdf.rows.filter (fun r => !(isOtherGeom r.geom))
          crs := gdf.crs }
      = clean_gdf_geometry gdf := by
  constructor
  · intro r hr
    rw [clean_rows_flatMap] at hr
    obtain ⟨r0, _, hmem⟩ := List.mem_flatMap.mp hr
    cases hg : r0.geom with
    | polygon g =>
        rw [expandRow, hg] at hmem
        simp only [List.mem_singleton] at hmem
        exact ⟨g, by rw [hmem, hg]⟩
    | multiPolygon gs =>
        rw [expandRow, hg] at hmem
        obtain ⟨g, _, hgr⟩ := List.mem_map.mp hmem
        exact ⟨g, by rw [← hgr]⟩
    | other =>
        rw [expandRow, hg] at hmem
        simp at hmem
  · have hrows : ∀ rows : List CRecord,
        (rows.filter (fun r => !(isOtherGeom r.geom))).flatMap expandRow
          = rows.flatMap expandRow := by
      intro rows
      induction rows with
      | nil => rfl
      | cons r t ih =>
          cases hg : r.geom with
          | polygon g =>
              have hc : isOtherGeom r.geom = false := by rw [hg]; rfl
              simp [List.filter_cons, hc, List.flatMap_cons, ih]
          | multiPolygon gs =>
              have hc : isOtherGeom r.geom = false := by rw [hg]; rfl
              simp [List.filter_cons, hc, List.flatMap_cons, ih]
          | other =>
              have hc : isOtherGeom r.geom = true := by rw [hg]; rfl
              have he : expandRow r = [] := by simp [expandRow, hg]
              simp [List.filter_cons, hc, List.flatMap_cons, ih, he]
    have hext : ∀ x y : GeoDF, x.rows = y.rows → x.crs = y.crs → x = y := by
      intro x y hxy hc
      cases x
      cases y
      simp_all
    apply hext
    · rw [clean_rows_flatMap, clean_rows_flatMap]
      exact hrows gdf.rows
    · rfl

/-- A dataframe containing a record of an unsupported geometry kind. -/
def otherGeomGdf : GeoDF :=
  { rows := [⟨PyGeom.other, [("mapunit", "Qa")]⟩], crs := "EPSG:26912" }

/-- C4 counterexample: on an input containing a record whose geometry is
neither Polygon nor MultiPolygon, `clean_gdf_geometry` raises nothing and
returns an output dataset (with the record silently dropped), refuting
"fails with an UnsupportedGeometry error rather than producing an output
dataset". -/
theorem clean_gdf_geometry_no_error_counterexample :
    clean_gdf_geometry otherGeomGdf = { rows := [], crs := "EPSG:26912" } :=
  rfl

/-- A dataframe mixing a Polygon row with an unsupported row, for the C4
witness. -/
def mixedGdf : GeoDF :=
  { rows :=
      [⟨PyGeom.polygon {((0 : ℤ), (0 : ℤ))}, [("mapunit", "Qa")]⟩,
       ⟨PyGeom.other, [("mapunit", "pt")]⟩]
    crs := "EPSG:4326" }

/-- Witness for C4 (amended) on `mixedGdf`. -/
theorem clean_gdf_geometry_drops_unsupported_witness :
    ∃ g, (⟨PyGeom.polygon {((0 : ℤ), (0 : ℤ))}, [("mapunit", "Qa")]⟩ :
      CRecord).geom = PyGeom.polygon g :=
  (clean_gdf_geometry_drops_unsupported mixedGdf).1
    ⟨PyGeom.polygon {((0 : ℤ), (0 : ℤ))}, [("mapunit", "Qa")]⟩
    (by decide)

/-- The directory part of a path: everything up to (and including) the last
`'/'`. -/
def dirOf (p : PyStr) : PyStr :=
  p.take (p.length - (lastComp p).length)

lemma take_sub_reverse_takeWhile (p : PyStr) (q : Char → Bool) :
    p.take (p.length - ((p.reverse.takeWhile q).reverse).length)
      ++ (p.reverse.takeWhile q).reverse = p := by
  have h : (List.dropWhile q p.reverse).reverse
      ++ (List.takeWhile q p.reverse).reverse = p := by
    rw [← List.reverse_append, List.takeWhile_append_dropWhile,
      List.reverse_reverse]
  have hlen : p.length - ((List.takeWhile q p.reverse).reverse).length
      = ((List.dropWhile q p.reverse).reverse).length := by
    have h3 := congrArg List.length h
    simp only [List.length_append] at h3
    omega
  rw [hlen]
  generalize hD : (List.dropWhile q p.reverse).reverse = D at h ⊢
  generalize hT : (List.takeWhile q p.reverse).reverse = T at h ⊢
  rw [← h, List.take_left]

lemma dirOf_append_lastComp (p : PyStr) : dirOf p ++ lastComp p = p := by
  unfold dirOf lastComp
  exact take_sub_reverse_takeWhile p _

lemma lastComp_of_not_contains (p : PyStr) (h : p.contains '/' = false) :
    lastComp p = p := by
  unfold lastComp
  have hall : ∀ c ∈ p.reverse, (fun c : Char => decide (c ≠ '/')) c = true := by
    intro c hc
    simp only [decide_eq_true_eq]
    intro heq
    subst heq
    have hmem : ('/' : Char) ∈ p := List.mem_reverse.mp hc
    have hcontr : p.contains '/' = true := List.elem_iff.mpr hmem
    rw [h] at hcontr
    cases hcontr
  rw [List.takeWhile_eq_self_iff.mpr hall, List.reverse_reverse]

lemma pyReplaceFuel_nil_str (rep pat : PyStr) (k : ℕ) :
    pyReplaceFuel rep pat k [] = [] := by
  cases k <;> rfl

lemma pyReplaceFuel_unique (c : Char) (rest : PyStr) :
    ∀ (d : PyStr) (k : ℕ), (d ++ (c :: rest)).length ≤ k →
      (∀ i < d.length,
        (c :: rest).isPrefixOf ((d ++ (c :: rest)).drop i) = false) →
      pyReplaceFuel [] (c :: rest) k (d ++ (c :: rest)) = d := by
  intro d
  induction d with
  | nil =>
      intro k hk _
      simp only [List.nil_append] at hk ⊢
      match k, hk with
      | k' + 1, _ =>
        show pyReplaceFuel [] (c :: rest) (k' + 1) (c :: rest) = []
        rw [pyReplaceFuel]
        rw [if_pos ⟨List.cons_ne_nil c rest,
          List.isPrefixOf_iff_prefix.mpr (List.prefix_refl _)⟩]
        rw [show ((c :: rest).drop (c :: rest).length) = [] from
          List.drop_length _]
        rw [pyReplaceFuel_nil_str]
        rfl
  | cons a d' ih =>
      intro k hk h
      have hk1 : 1 ≤ k := by
        simp only [List.cons_append, List.length_cons] at hk
        omega
      match k, hk1 with
      | k' + 1, _ =>
        show pyReplaceFuel [] (c :: rest) (k' + 1)
          (a :: (d' ++ (c :: rest))) = a :: d'
        have hnp : ¬ ((c :: rest) ≠ [] ∧
            (c :: rest).isPrefixOf (a :: (d' ++ (c :: rest))) = true) := by
          intro hcontr
          have h0 := h 0 (by simp)
          simp only [List.drop_zero, List.cons_append] at h0
          rw [h0] at hcontr
          exact absurd hcontr.2 (by simp)
        rw [pyReplaceFuel]
        rw [if_neg hnp]
        have hrec := ih k'
          (by
            simp only [List.cons_append, List.length_cons] at hk
            omega)
          (fun i hi => by
            have hh := h (i + 1) (by simpa using Nat.succ_lt_succ hi)
            simpa [List.drop_succ_cons] using hh)
        rw [hrec]

lemma pyReplace_unique (d fn : PyStr) (hfn : fn ≠ [])
    (h : ∀ i < d.length, fn.isPrefixOf ((d ++ fn).drop i) = false) :
    pyReplace (d ++ fn) fn [] = d := by
  match fn, hfn with
  | c :: rest, _ =>
    unfold pyReplace
    rw [if_neg (List.cons_ne_nil c rest)]
    exact pyReplaceFuel_unique c rest d (d ++ (c :: rest)).length le_rfl h

/-- C8 (amended): the derived label filename is deterministic — directory
part, then the first underscore token of the base filename, then the fixed
suffix `'_labels.tif'` — and the directory part equals the input path's own
directory provided the base filename is nonempty and occurs in the path
only as its final component; because the directory part is computed with
`str.replace`, any earlier occurrence of the base filename in the path is
also deleted. -/
theorem format_label_fn_spec (p : PyStr)
    (hfn : lastComp p ≠ [])
    (huniq : ∀ i < (dirOf p).length,
      (lastComp p).isPrefixOf (p.drop i) = false) :
    format_label_fn p
      = dirOf p ++ firstToken (lastComp p) ++ ("_labels.tif".toList) := by
  unfold format_label_fn
  cases hc : p.contains '/' with
  | false =>
      have hl : lastComp p = p := lastComp_of_not_contains p hc
      have hd : dirOf p = [] := by
        unfold dirOf
        rw [hl]
        simp
      simp [hc, hl, hd]
  | true =>
      have hpath : pyReplace p (lastComp p) [] = dirOf p := by
        have hsplit := dirOf_append_lastComp p
        generalize hgd : dirOf p = d at hsplit huniq ⊢
        generalize hgf : lastComp p = fn at hsplit huniq hfn ⊢
        rw [← hsplit] at huniq ⊢
        exact pyReplace_unique d fn hfn huniq
      simp [hc, hpath]

/-- Witness for C8 on a path whose base filename occurs only once. -/
theorem format_label_fn_spec_witness :
    format_label_fn ("data/t1_x.tif".toList)
      = dirOf ("data/t1_x.tif".toList)
        ++ firstToken (lastComp ("data/t1_x.tif".toList))
        ++ ("_labels.tif".toList) :=
  format_label_fn_spec ("data/t1_x.tif".toList) (by decide) (by decide)

/-- C8 counterexample: for the input path `"ab/ab"` the base filename also
occurs inside the directory part, `str.replace` deletes both occurrences,
and the derived name is `"/ab_labels.tif"` — not in the input's directory
`"ab/"` as the claim requires. -/
theorem format_label_fn_counterexample :
    format_label_fn ("ab/ab".toList) = ("/ab_labels.tif".toList)
    ∧ format_label_fn ("ab/ab".toList) ≠ ("ab/ab_labels.tif".toList) :=
  ⟨by decide, by decide⟩

/-- C5 (amended): when the primary read fails, exactly one fallback read of
the fixed remote URL is attempted (the paths read are the primary path
followed by the fallback URL, and nothing else); if the fallback read also
fails, the fallback's own read error propagates untyped — the operation
does not fail with the spec's ResourceUnavailable error class. -/
theorem generate_unitcolor_lookup_fallback (env : CsvEnv) (path : String)
    (e1 : String) (h1 : env path = Except.error e1) :
    (generate_unitcolor_lookup env path).2 = [path, FALLBACK_DESC_URL]
    ∧ (∀ e2, env FALLBACK_DESC_URL = Except.error e2 →
        (generate_unitcolor_lookup env path).1
          = Except.error (PyErr.readError e2)
        ∧ (generate_unitcolor_lookup env path).1
          ≠ Except.error PyErr.resourceUnavailable)
    ∧ (∀ rows, env FALLBACK_DESC_URL = Except.ok rows →
        (generate_unitcolor_lookup env path).1 = processCsv rows) := by
  refine ⟨?_, ?_, ?_⟩
  · unfold generate_unitcolor_lookup
    rw [h1]
    cases h2 : env FALLBACK_DESC_URL <;> rfl
  · intro e2 h2
    unfold generate_unitcolor_lookup
    rw [h1, h2]
    exact ⟨rfl, by simp⟩
  · intro rows h2
    unfold generate_unitcolor_lookup
    rw [h1, h2]

/-- An environment in which every read fails, for C5. -/
def envAllFail : CsvEnv := fun _ => Except.error "connection refused"

/-- Witness for C5 (amended) with a primary path that fails to read. -/
theorem generate_unitcolor_lookup_fallback_witness :
    (generate_unitcolor_lookup envAllFail "local.csv").2
      = ["local.csv", FALLBACK_DESC_URL] :=
  (generate_unitcolor_lookup_fallback envAllFail "local.csv"
    "connection refused" rfl).1

/-- C5 counterexample: when both the primary and the fallback read fail,
the operation fails with the propagated untyped read error, not with a
ResourceUnavailable error. -/
theorem generate_unitcolor_lookup_counterexample :
    (generate_unitcolor_lookup envAllFail "local.csv").1
      = Except.error (PyErr.readError "connection refused")
    ∧ (generate_unitcolor_lookup envAllFail "local.csv").1
      ≠ Except.error PyErr.resourceUnavailable := by
  refine ⟨rfl, ?_⟩
  intro h
  rw [show (generate_unitcolor_lookup envAllFail "local.csv").1
      = Except.error (PyErr.readError "connection refused") from rfl] at h
  simp at h

lemma mapExcept_cons_error {α β : Type} (f : α → Except PyErr β)
    (x : α) (xs : List α) (e : PyErr) (hx : f x = Except.error e) :
    mapExcept f (x :: xs) = Except.error e := by
  rw [mapExcept, hx]
  rfl

lemma mapExcept_cons_ok_error {α β : Type} (f : α → Except PyErr β)
    (x : α) (xs : List α) (y : β) (e : PyErr) (hx : f x = Except.ok y)
    (hxs : mapExcept f xs = Except.error e) :
    mapExcept f (x :: xs) = Except.error e := by
  rw [mapExcept, hx]
  show (mapExcept f xs >>= _) = _
  rw [hxs]
  rfl

lemma mapExcept_error_of_missing (lut : List LutEntry)
    (sel : ℤ × ℤ × ℤ → ℤ) (gdf : List VRecord)
    (hmiss : ∃ r ∈ gdf,
      lut.find? (fun e => decide (e.1 = r.mapunit)) = none) :
    ∃ m, lut.find? (fun e => decide (e.1 = m)) = none
      ∧ mapExcept (fun x => do
          let v ← lutGet sel lut x.mapunit
          Except.ok (x.geometry, v)) gdf
        = Except.error (PyErr.keyError m) := by
  induction gdf with
  | nil => simp at hmiss
  | cons r t ih =>
      cases hfind : lut.find? (fun e => decide (e.1 = r.mapunit)) with
      | none =>
          refine ⟨r.mapunit, hfind, ?_⟩
          refine mapExcept_cons_error _ r t _ ?_
          show (lutGet sel lut r.mapunit >>= _) = _
          unfold lutGet
          rw [hfind]
          rfl
      | some entry =>
          obtain ⟨r', hr', hmiss'⟩ := hmiss
          rcases List.mem_cons.mp hr' with heq | hmem
          · rw [heq] at hmiss'
            rw [hmiss'] at hfind
            cases hfind
          · obtain ⟨m, hm, herr⟩ := ih ⟨r', hmem, hmiss'⟩
            refine ⟨m, hm, ?_⟩
            refine mapExcept_cons_ok_error _ r t (r.geometry, sel entry.2) _ ?_ herr
            show (lutGet sel lut r.mapunit >>= _) = _
            unfold lutGet
            rw [hfind]
            rfl

/-- C6: when the unit-color lookup is built successfully but some record's
unit identifier has no entry in it, `gdf_to_rst` fails with the KeyError
carrying an absent identifier (the spec's UnknownUnit); in particular no
label image — and hence no default or fabricated color triple — is
produced. -/
theorem gdf_to_rst_unknown_unit (env : CsvEnv) (gdf : List VRecord)
    (trs : AffineT) (w h : ℕ) (path : String) (lut : List LutEntry)
    (hlut : (generate_unitcolor_lookup env path).1 = Except.ok lut)
    (hmiss : ∃ r ∈ gdf,
      lut.find? (fun e => decide (e.1 = r.mapunit)) = none) :
    ∃ m, lut.find? (fun e => decide (e.1 = m)) = none
      ∧ gdf_to_rst env gdf trs w h path
        = Except.error (PyErr.keyError m) := by
  obtain ⟨m, hm, herr⟩ :=
    mapExcept_error_of_missing lut (fun c => c.1) gdf hmiss
  refine ⟨m, hm, ?_⟩
  unfold gdf_to_rst
  rw [hlut]
  show (do
      let rshapes ← mapExcept (fun x => do
        let v ← lutGet (fun c => c.1) lut x.mapunit
        Except.ok (x.geometry, v)) gdf
      let gshapes ← mapExcept (fun x => do
        let v ← lutGet (fun c => c.2.1) lut x.mapunit
        Except.ok (x.geometry, v)) gdf
      let bshapes ← mapExcept (fun x => do
        let v ← lutGet (fun c => c.2.2) lut x.mapunit
        Except.ok (x.geometry, v)) gdf
      Except.ok
        (Label.mk (rasterize rshapes (w, h) trs)
          (rasterize gshapes (w, h) trs)
          (rasterize bshapes (w, h) trs)))
    = Except.error (PyErr.keyError m)
  rw [herr]
  rfl

/-- An identity-like affine transform for witnesses. -/
def sampleTransform : AffineT := ⟨1, 0, 0, 0, 1, 0⟩

/-- An environment whose every read yields a one-row color table mapping
unit "A" to color 1;2;3. -/
def envOneUnit : CsvEnv := fun _ => Except.ok [⟨"A", "1;2;3".toList⟩]

/-- Witness for C6: rasterizing a record with the absent unit "B". -/
theorem gdf_to_rst_unknown_unit_witness :
    ∃ m, ([("A", (1 : ℤ), (2 : ℤ), (3 : ℤ))] : List LutEntry).find?
        (fun e => decide (e.1 = m)) = none
      ∧ gdf_to_rst envOneUnit [⟨∅, "B"⟩] sampleTransform 2 3 "p"
        = Except.error (PyErr.keyError m) :=
  gdf_to_rst_unknown_unit envOneUnit [⟨∅, "B"⟩] sampleTransform 2 3 "p"
    [("A", 1, 2, 3)] (by rfl)
    ⟨⟨∅, "B"⟩, List.mem_singleton.mpr rfl, by decide⟩

/-- The per-record (geometry, channel value) resolver used by `gdf_to_rst`
for one channel. -/
def channelShapes (sel : ℤ × ℤ × ℤ → ℤ) (lut : List LutEntry) :
    VRecord → Except PyErr (Geom × ℤ) := fun x => do
  let v ← lutGet sel lut x.mapunit
  Except.ok (x.geometry, v)

lemma gdf_to_rst_ok_shape (env : CsvEnv) (gdf : List VRecord)
    (trs : AffineT) (w h : ℕ) (path : String) (la : Label)
    (hla : gdf_to_rst env gdf trs w h path = Except.ok la) :
    la.r.width = w ∧ la.r.height = h ∧ la.g.width = w ∧ la.g.height = h
    ∧ la.b.width = w ∧ la.b.height = h := by
  unfold gdf_to_rst at hla
  cases hlut : (generate_unitcolor_lookup env path).1 with
  | error e =>
      rw [hlut] at hla
      exact Except.noConfusion hla
  | ok lut =>
      rw [hlut] at hla
      have hla1 : (do
          let rshapes ← mapExcept (channelShapes (fun c => c.1) lut) gdf
          let gshapes ← mapExcept (channelShapes (fun c => c.2.1) lut) gdf
          let bshapes ← mapExcept (channelShapes (fun c => c.2.2) lut) gdf
          Except.ok (Label.mk (rasterize rshapes (w, h) trs)
            (rasterize gshapes (w, h) trs)
            (rasterize bshapes (w, h) trs)))
          = Except.ok la := hla
      cases hr : mapExcept (channelShapes (fun c => c.1) lut) gdf with
      | error e => rw [hr] at hla1; exact Except.noConfusion hla1
      | ok rs =>
          rw [hr] at hla1
          have hla2 : (do
              let gshapes ← mapExcept (channelShapes (fun c => c.2.1) lut) gdf
              let bshapes ← mapExcept (channelShapes (fun c => c.2.2) lut) gdf
              Except.ok (Label.mk (rasterize rs (w, h) trs)
                (rasterize gshapes (w, h) trs)
                (rasterize bshapes (w, h) trs)))
              = Except.ok la := hla1
          cases hg : mapExcept (channelShapes (fun c => c.2.1) lut) gdf with
          | error e => rw [hg] at hla2; exact Except.noConfusion hla2
          | ok gs =>
              rw [hg] at hla2
              have hla3 : (do
                  let bshapes ← mapExcept (channelShapes (fun c => c.2.2) lut) gdf
                  Except.ok (Label.mk (rasterize rs (w, h) trs)
                    (rasterize gs (w, h) trs)
                    (rasterize bshapes (w, h) trs)))
                  = Except.ok la := hla2
              cases hb : mapExcept (channelShapes (fun c => c.2.2) lut) gdf with
              | error e => rw [hb] at hla3; exact Except.noConfusion hla3
              | ok bs =>
                  rw [hb] at hla3
                  have hla4 : Except.ok (Label.mk (rasterize rs (w, h) trs)
                      (rasterize gs (w, h) trs)
                      (rasterize bs (w, h) trs))
                      = Except.ok la := hla3
                  have hinj := Except.ok.inj hla4
                  rw [← hinj]
                  exact ⟨rfl, rfl, rfl, rfl, rfl, rfl⟩

/-- C1: whenever `gdf_to_rst`, invoked with a tile's transform, width W and
height H, produces a label image, `write_label_image` writes it with the
tile's transform and CRS, with declared width W and height H, and with
exactly three bands each having exactly W columns and H rows — the label
raster and the source tile are pixel-for-pixel co-registered. -/
theorem label_pipeline_coregistered (env : CsvEnv) (gdf : List VRecord)
    (src : TileMeta) (path : String) (la : Label)
    (hla : gdf_to_rst env gdf src.transform src.width src.height path
      = Except.ok la) :
    ∃ out, write_label_image la src = Except.ok out
      ∧ out.width = src.width ∧ out.height = src.height
      ∧ out.transform = src.transform ∧ out.crs = src.crs
      ∧ out.bands.length = 3
      ∧ ∀ ch ∈ out.bands,
          ch.width = src.width ∧ ch.height = src.height := by
  obtain ⟨hw1, hh1, hw2, hh2, hw3, hh3⟩ :=
    gdf_to_rst_ok_shape env gdf src.transform src.width src.height path la hla
  refine ⟨⟨src.width, src.height, src.transform, src.crs,
    [la.r, la.g, la.b]⟩, ?_, rfl, rfl, rfl, rfl, rfl, ?_⟩
  · have e1 : npReshape la.r src.width src.height = Except.ok la.r := by
      unfold npReshape
      rw [if_pos ⟨hw1, hh1⟩]
    have e2 : npReshape la.g src.width src.height = Except.ok la.g := by
      unfold npReshape
      rw [if_pos ⟨hw2, hh2⟩]
    have e3 : npReshape la.b src.width src.height = Except.ok la.b := by
      unfold npReshape
      rw [if_pos ⟨hw3, hh3⟩]
    have hwrite : write_label_image la src = (do
        let r ← npReshape la.r src.width src.height
        let g ← npReshape la.g src.width src.height
        let b ← npReshape la.b src.width src.height
        Except.ok (LFile.mk src.width src.height src.transform src.crs
          [r, g, b])) := rfl
    rw [hwrite, e1, e2, e3]
    rfl
  · intro ch hch
    simp only [List.mem_cons, List.mem_singleton, List.not_mem_nil,
      or_false] at hch
    rcases hch with rfl | rfl | rfl
    · exact ⟨hw1, hh1⟩
    · exact ⟨hw2, hh2⟩
    · exact ⟨hw3, hh3⟩

/-- A sample 2×3 tile for witnesses. -/
def sampleTile : TileMeta := ⟨2, 3, sampleTransform, "EPSG:32612"⟩

/-- The label image of the empty dataset on the sample tile. -/
def emptyLabel : Label :=
  Label.mk (rasterize [] (2, 3) sampleTransform)
    (rasterize [] (2, 3) sampleTransform)
    (rasterize [] (2, 3) sampleTransform)

/-- Witness for C1 on the sample tile with the empty clipped dataset. -/
theorem label_pipeline_coregistered_witness :
    ∃ out, write_label_image emptyLabel sampleTile = Except.ok out
      ∧ out.width = sampleTile.width ∧ out.height = sampleTile.height
      ∧ out.transform = sampleTile.transform ∧ out.crs = sampleTile.crs
      ∧ out.bands.length = 3
      ∧ ∀ ch ∈ out.bands,
          ch.width = sampleTile.width ∧ ch.height = sampleTile.height :=
  label_pipeline_coregistered envOneUnit [] sampleTile "p" emptyLabel
    (by rfl)

/-- C7: rasterizing an empty collection of (geometry, value) pairs succeeds
and yields a grid of the requested width and height in which every pixel
holds the background value 0; consequently `gdf_to_rst` on an empty
(clipped) dataset succeeds with three all-background channels whenever the
color table itself reads successfully. -/
theorem rasterize_empty_all_background (w h : ℕ) (trs : AffineT) :
    (rasterize [] (w, h) trs).width = w
    ∧ (rasterize [] (w, h) trs).height = h
    ∧ (∀ col row, (rasterize [] (w, h) trs).px col row = 0)
    ∧ ∀ (env : CsvEnv) (path : String) (lut : List LutEntry),
        (generate_unitcolor_lookup env path).1 = Except.ok lut →
        gdf_to_rst env [] trs w h path
          = Except.ok (Label.mk (rasterize [] (w, h) trs)
              (rasterize [] (w, h) trs) (rasterize [] (w, h) trs)) := by
  refine ⟨rfl, rfl, fun col row => rfl, ?_⟩
  intro env path lut hlut
  unfold gdf_to_rst
  rw [hlut]
  rfl

/-- Witness for C7 with a concrete environment and 2×3 grid. -/
theorem rasterize_empty_all_background_witness :
    gdf_to_rst envOneUnit [] sampleTransform 2 3 "p"
      = Except.ok (Label.mk (rasterize [] (2, 3) sampleTransform)
          (rasterize [] (2, 3) sampleTransform)
          (rasterize [] (2, 3) sampleTransform)) :=
  (rasterize_empty_all_background 2 3 sampleTransform).2.2.2 envOneUnit "p"
    [("A", 1, 2, 3)] (by rfl)

lemma except_bind_ok {α β : Type} (x : Except PyErr α)
    (f : α → Except PyErr β) (b : β) (h : (x >>= f) = Except.ok b) :
    ∃ a, x = Except.ok a ∧ f a = Except.ok b := by
  cases x with
  | error e => exact Except.noConfusion h
  | ok a => exact ⟨a, rfl, h⟩


lemma fsRead_fsWrite_ne (fs : FileSys) (p q : PyStr) (f : MFile)
    (h : q ≠ p) : fsRead (fsWrite fs p f) q = fsRead fs q := by
  have hpq : ¬ ((p, f).1 = q) := fun hh => h hh.symm
  induction fs with
  | nil =>
      unfold fsRead fsWrite
      rw [List.filter_nil, List.nil_append]
      rw [List.find?_cons_of_neg _ (by simpa using hpq), List.find?_nil]
  | cons a fs ih =>
      by_cases hp : a.1 = p
      · have h1 : fsWrite (a :: fs) p f = fsWrite fs p f := by
          unfold fsWrite
          rw [List.filter_cons_of_neg (by simp [hp])]
        have h2 : fsRead (a :: fs) q = fsRead fs q := by
          unfold fsRead
          rw [List.find?_cons_of_neg _ (by
            simp only [hp, decide_eq_true_eq]
            exact fun hh => h hh.symm)]
        rw [h1, ih, h2]
      · have h1 : fsWrite (a :: fs) p f = a :: fsWrite fs p f := by
          unfold fsWrite
          rw [List.filter_cons_of_pos (by simp [hp]), List.cons_append]
        rw [h1]
        by_cases hq : a.1 = q
        · unfold fsRead
          rw [List.find?_cons_of_pos _ (by simp [hq]),
            List.find?_cons_of_pos _ (by simp [hq])]
        · unfold fsRead
          rw [List.find?_cons_of_neg _ (by simp [hq]),
            List.find?_cons_of_neg _ (by simp [hq])]
          exact ih

/-- C9 (amended): whenever `mask_raster` succeeds and the derived output
path differs from the image path, the original image file's on-disk
contents are unchanged (only the derived `'_raster.tif'` path is written,
and the `'r+'` handle on the image is never written through); when the
image path itself already has the derived form, the output path coincides
with it and the original file is overwritten. -/
theorem mask_raster_preserves_input (fs : FileSys) (imgpth lblpth : PyStr)
    (fs2 : FileSys) (hok : mask_raster fs imgpth lblpth = Except.ok fs2)
    (hne : outRasterName imgpth ≠ imgpth) :
    fsRead fs2 imgpth = fsRead fs imgpth := by
  unfold mask_raster at hok
  obtain ⟨lbl, _, hok⟩ := except_bind_ok _ _ _ hok
  obtain ⟨src, _, hok⟩ := except_bind_ok _ _ _ hok
  obtain ⟨b1, _, hok⟩ := except_bind_ok _ _ _ hok
  obtain ⟨b2, _, hok⟩ := except_bind_ok _ _ _ hok
  obtain ⟨b3, _, hok⟩ := except_bind_ok _ _ _ hok
  obtain ⟨n1, _, hok⟩ := except_bind_ok _ _ _ hok
  obtain ⟨n2, _, hok⟩ := except_bind_ok _ _ _ hok
  obtain ⟨n3, _, hok⟩ := except_bind_ok _ _ _ hok
  have hfs2 := Except.ok.inj hok
  rw [← hfs2]
  exact fsRead_fsWrite_ne fs (outRasterName imgpth) imgpth _
    (fun hh => hne hh.symm)

/-- A sample image raster file: three 1×1 bands of value 50, all valid. -/
def imgFileW : MFile :=
  ⟨"meta-img", [[[50]], [[50]], [[50]]], [[[255]], [[255]], [[255]]]⟩

/-- A sample label raster file whose first band mask marks the pixel
invalid. -/
def lblFileW : MFile :=
  ⟨"meta-lbl", [[[1]], [[2]], [[3]]], [[[0]], [[255]], [[255]]]⟩

/-- The masked output file for `imgFileW` under `lblFileW`. -/
def maskedFileW : MFile :=
  ⟨"meta-img", [[[0]], [[50]], [[50]]], [[[255]], [[255]], [[255]]]⟩

/-- Image path for the C9 witness. -/
def imgPathW : PyStr := "t1_x.tif".toList

/-- Label path for the C9 witness. -/
def lblPathW : PyStr := "t1_labels.tif".toList

/-- The witness filesystem. -/
def fsW : FileSys := [(imgPathW, imgFileW), (lblPathW, lblFileW)]

/-- The witness filesystem after masking. -/
def fsWAfter : FileSys := fsW ++ [("t1_raster.tif".toList, maskedFileW)]

/-- Witness for C9 (amended) on a non-colliding image path. -/
theorem mask_raster_preserves_input_witness :
    fsRead fsWAfter imgPathW = fsRead fsW imgPathW :=
  mask_raster_preserves_input fsW imgPathW lblPathW fsWAfter (by rfl)
    (by decide)

/-- Image path whose derived output path coincides with it. -/
def imgCollidePath : PyStr := "x_raster.tif".toList

/-- Label path for the C9 counterexample. -/
def lblCollidePath : PyStr := "x_labels.tif".toList

/-- The counterexample filesystem. -/
def fsCollide : FileSys :=
  [(imgCollidePath, imgFileW), (lblCollidePath, lblFileW)]

/-- The counterexample filesystem after masking: the original image entry
has been replaced by the masked output. -/
def fsCollideAfter : FileSys :=
  [(lblCollidePath, lblFileW), (imgCollidePath, maskedFileW)]

/-- C9 counterexample: for the image path `"x_raster.tif"` the derived
output path equals the image path, so `mask_raster` overwrites the original
image file on disk with the masked bands, refuting "leaves the original
image file's on-disk contents unchanged" for every image path. -/
theorem mask_raster_overwrite_counterexample :
    mask_raster fsCollide imgCollidePath lblCollidePath
      = Except.ok fsCollideAfter
    ∧ fsRead fsCollideAfter imgCollidePath ≠ fsRead fsCollide imgCollidePath :=
  ⟨rfl, by decide⟩
